import Mathlib

/-!
# Excavation Monitoring System — verification development

A shallow embedding of the excavation-monitoring repository's analysis and
client code, together with proofs about it.

Embedded from the TypeScript sources:
* `src/frontend/src/types/index.ts` — the `ViolationEvent` record and its
  `event_type` union.
* `src/frontend/src/store/index.ts` — the client violation store
  (`addViolation`, `setViolations`).
* `src/frontend/src/components/ViolationPanel.tsx` — the websocket
  message handler that feeds the store.
* `src/frontend/src/api/client.ts` — `polygonToGeoJSON`.
* `src/frontend/src/components/ExcavationMap.tsx` — `parseGeometry`
  and `calculateArea`.
* the dashboard page's `handleRunAnalysis` polling loop.
* the chart component's `chartData` rate/smoothing computation.

The numerical backend pipeline (consensus validation, confidence scoring,
violation state machine) is not part of the shipped sources; those
definitions are modelled from the specification and are marked as such in
their doc comments.

Machine reals are modelled as `ℚ`; JavaScript exceptions are modelled with
`Except String`.
-/

namespace ExcavationMonitoring

/-! ## Violation events (from `src/frontend/src/types/index.ts`) -/

/-- The `event_type` union of the `ViolationEvent` interface:
`'VIOLATION_START' | 'ESCALATION' | 'VIOLATION_RESOLVED'`. -/
inductive EventType where
  | VIOLATION_START : EventType
  | ESCALATION : EventType
  | VIOLATION_RESOLVED : EventType
deriving DecidableEq, Repr

/-- The string literal each `event_type` value is written as in the source. -/
def EventType.toLiteral : EventType → String
  | .VIOLATION_START => "VIOLATION_START"
  | .ESCALATION => "ESCALATION"
  | .VIOLATION_RESOLVED => "VIOLATION_RESOLVED"

/-- Severity labels of a violation (`'LOW' | 'MEDIUM' | 'HIGH' | 'CRITICAL'`). -/
inductive Severity where
  | LOW : Severity
  | MEDIUM : Severity
  | HIGH : Severity
  | CRITICAL : Severity
deriving DecidableEq, Repr

/-- The `ViolationEvent` record of `src/frontend/src/types/index.ts`
(fields not needed by any proof — timestamps, metadata — are kept as
plain strings or omitted). -/
structure ViolationEvent where
  id : String
  aoi_id : String
  nogo_zone_id : String
  event_type : EventType
  detection_date : String
  excavated_area_ha : ℚ
  severity : Severity
  is_resolved : Bool
  resolved_date : Option String
deriving DecidableEq, Repr

/-! ## Client violation store (from `src/frontend/src/store/index.ts` and
`src/frontend/src/components/ViolationPanel.tsx`) -/

/-- The `Violation` interface of the client store: it carries no
(area, zone) identification at all. -/
structure ClientViolation where
  id : String
  event_type : String
  detection_date : String
  excavated_area_ha : ℚ
  severity : String
  description : String
  is_resolved : Bool
  resolved_date : Option String
deriving DecidableEq, Repr

/-- `addViolation` of the store: prepends the new violation to the
collection, with no lookup of an existing entry. -/
def addViolation (v : ClientViolation) (violations : List ClientViolation) :
    List ClientViolation :=
  v :: violations

/-- A websocket message as consumed by `ViolationPanel`.  The
`violation_alert` payload is the backend `ViolationEvent`, so it does carry
the (area, zone) pair — the handler simply never reads those two fields. -/
inductive WsMessage where
  | violationAlert (event_id : Option String) (event_type : Option String)
      (detection_date : Option String) (excavated_area_ha : Option ℚ)
      (severity : Option String) (description : Option String)
      (aoi_id : String) (nogo_zone_id : String) : WsMessage
  | violationResolved (event_id : String) : WsMessage
  | otherMessage : WsMessage
deriving DecidableEq, Repr

/-- The monitored-area / no-go-zone pair a websocket message concerns,
when it is an alert. -/
def WsMessage.pair : WsMessage → Option (String × String)
  | .violationAlert _ _ _ _ _ _ aoiId zoneId => some (aoiId, zoneId)
  | _ => none

/-- The `connect` callback of `ViolationPanel` (lines 34–58): a
`violation_alert` builds a fresh non-resolved `ClientViolation` (defaulting
missing payload fields) and prepends it via `addViolation`; a
`violation_resolved` maps over the collection marking the matching id
resolved.  `now` stands for `new Date().toISOString()`. -/
def handleWsMessage (now : String) (violations : List ClientViolation) :
    WsMessage → List ClientViolation
  | .violationAlert eventId eventType detectionDate areaHa severity descr _ _ =>
      addViolation
        { id := eventId.getD ("violation-" ++ now)
          event_type := eventType.getD "VIOLATION_START"
          detection_date := detectionDate.getD now
          excavated_area_ha := areaHa.getD 0
          severity := severity.getD "HIGH"
          description := descr.getD "Excavation detected in no-go zone"
          is_resolved := false
          resolved_date := none }
        violations
  | .violationResolved eventId =>
      violations.map fun v =>
        if v.id = eventId then
          { v with is_resolved := true, resolved_date := some now }
        else v
  | .otherMessage => violations

/-- Processing a sequence of incoming websocket messages, oldest first. -/
def processWsMessages (now : String) (violations : List ClientViolation)
    (msgs : List WsMessage) : List ClientViolation :=
  msgs.foldl (handleWsMessage now) violations

/-- Number of non-resolved violations currently held in the collection. -/
def countNonResolved (violations : List ClientViolation) : ℕ :=
  (violations.filter (fun v => !v.is_resolved)).length

/-! ## `polygonToGeoJSON` (from `src/frontend/src/api/client.ts`) -/

/-- A GeoJSON polygon: a list of rings of `[lng, lat]` pairs. -/
structure GeoJSONPolygon where
  coordinates : List (List (ℚ × ℚ))
deriving DecidableEq, Repr

/-- `polygonToGeoJSON`: rejects fewer than three vertices, swaps each
`[lat, lng]` input pair to `[lng, lat]`, and closes the ring by appending
the first coordinate exactly when it differs from the last. -/
def polygonToGeoJSON (coordinates : List (ℚ × ℚ)) :
    Except String GeoJSONPolygon :=
  if coordinates.length < 3 then
    .error "Polygon must have at least 3 vertices"
  else
    let geoJsonCoords := coordinates.map fun c => (c.2, c.1)
    let closed :=
      match geoJsonCoords.head?, geoJsonCoords.getLast? with
      | some firstCoord, some lastCoord =>
          if firstCoord ≠ lastCoord then geoJsonCoords ++ [firstCoord]
          else geoJsonCoords
      | _, _ => geoJsonCoords
    .ok { coordinates := [closed] }

/-! ## `parseGeometry` / `calculateArea`
(from `src/frontend/src/components/ExcavationMap.tsx`) -/

/-- The runtime geometry values `ExcavationMap` may receive: `null`, a
GeoJSON `Polygon` (list of rings), a `MultiPolygon` (list of lists of
rings), or any other shape. -/
inductive Geometry where
  | nullGeom : Geometry
  | polygon (coordinates : List (List (ℚ × ℚ))) : Geometry
  | multiPolygon (coordinates : List (List (List (ℚ × ℚ)))) : Geometry
  | otherGeom : Geometry
deriving DecidableEq, Repr

/-- The JavaScript `TypeError` raised by `undefined.map(...)`. -/
def undefinedMapError : String :=
  "TypeError: Cannot read properties of undefined (reading map)"

/-- `parseGeometry`: `null` and unknown types give `[]`; a `Polygon` maps
its first ring from `[lng, lat]` to `[lat, lng]`; a `MultiPolygon` does the
same with the first ring of the first polygon.  Accessing the first ring
when it is absent (`coordinates[0]` is `undefined`) throws. -/
def parseGeometry : Geometry → Except String (List (ℚ × ℚ))
  | .nullGeom => .ok []
  | .polygon coordinates =>
      match coordinates.head? with
      | some ring => .ok (ring.map fun c => (c.2, c.1))
      | none => .error undefinedMapError
  | .multiPolygon coordinates =>
      match coordinates.head? with
      | some polys =>
          match polys.head? with
          | some ring => .ok (ring.map fun c => (c.2, c.1))
          | none => .error undefinedMapError
      | none => .error undefinedMapError
  | .otherGeom => .ok []

/-- The loop body of `calculateArea`: for `i` from `0` to `length − 2`,
accumulate `lon1 * lat2 − lon2 * lat1` over consecutive coordinates. -/
def shoelaceSum : List (ℚ × ℚ) → ℚ
  | (lat1, lon1) :: (lat2, lon2) :: rest =>
      (lon1 * lat2 - lon2 * lat1) + shoelaceSum ((lat2, lon2) :: rest)
  | _ => 0

/-- `calculateArea`: parse the geometry, return `0` when fewer than three
coordinates result, else `|shoelace sum| / 2`. -/
def calculateArea (geometry : Geometry) : Except String ℚ :=
  (parseGeometry geometry).map fun coords =>
    if coords.length < 3 then 0 else |shoelaceSum coords| / 2

/-- Whether the geometry carries the first ring that `parseGeometry`
dereferences unconditionally for polygon types. -/
def hasFirstRing : Geometry → Bool
  | .polygon coordinates => !coordinates.isEmpty
  | .multiPolygon coordinates =>
      match coordinates.head? with
      | some polys => !polys.isEmpty
      | none => false
  | .nullGeom => true
  | .otherGeom => true

/-! ## Chart data (the dashboard chart component's `chartData`) -/

/-- One backend time-series point as received by the chart
(`TimeSeriesPoint`): the timestamp is modelled in days, the optional
smoothed value mirrors the optional `smoothed_area_ha` field. -/
structure TSPoint where
  timestamp : ℚ
  excavated_area_ha : ℚ
  smoothed_area_ha : Option ℚ
deriving DecidableEq, Repr

/-- JavaScript `x || d` on an optional number: `undefined` and `0` are
falsy and give the default. -/
def jsOrNum (x : Option ℚ) (d : ℚ) : ℚ :=
  match x with
  | some v => if v = 0 then d else v
  | none => d

/-- `if r > 0 then r else 0` — the clamp applied to the chart's rate. -/
def clampPos (r : ℚ) : ℚ :=
  if 0 < r then r else 0

/-- The chart's per-row `rate`: `prevLegal` is the previous point's raw
area when `idx > 0` and the current point's own raw area at `idx = 0`;
`rate = excavated_area_ha − prevLegal`, clamped to `≥ 0`.  No timestamp is
consulted. -/
def chartRatesFrom : Option ℚ → List TSPoint → List ℚ
  | _, [] => []
  | prev, p :: rest =>
      clampPos (p.excavated_area_ha - prev.getD p.excavated_area_ha) ::
        chartRatesFrom (some p.excavated_area_ha) rest

/-- The `rate` column of `chartData` over the legal-boundary series. -/
def chartRateSeries (legalBoundary : List TSPoint) : List ℚ :=
  chartRatesFrom none legalBoundary

/-- The rate the specification describes: the area delta divided by the
elapsed days between the two points, reported when positive and `0`
otherwise.  Stated from the spec for comparison with `chartRateSeries`. -/
def specRate (prev cur : TSPoint) : ℚ :=
  clampPos ((cur.excavated_area_ha - prev.excavated_area_ha) /
    (cur.timestamp - prev.timestamp))

/-- The `legal_smooth` column: `legal.smoothed_area_ha ||
legal.excavated_area_ha`. -/
def legalSmoothSeries (legalBoundary : List TSPoint) : List ℚ :=
  legalBoundary.map fun p => jsOrNum p.smoothed_area_ha p.excavated_area_ha

/-- The `nogo_smooth` column: rows are indexed by the legal series, and
`noGoZones[idx]?.smoothed_area_ha || 0` falls back to `0`. -/
def nogoSmoothSeries (legalBoundary noGoZones : List TSPoint) : List ℚ :=
  (List.range legalBoundary.length).map fun idx =>
    jsOrNum (noGoZones[idx]?.bind (·.smoothed_area_ha)) 0

/-! ## The `handleRunAnalysis` polling loop (dashboard page) -/

/-- The `status` field of `AnalysisJobStatus`. -/
inductive JobStatus where
  | PENDING : JobStatus
  | RUNNING : JobStatus
  | COMPLETED : JobStatus
  | FAILED : JobStatus
deriving DecidableEq, Repr

/-- Statuses on which the loop sets `completed = true`. -/
def isTerminalStatus : JobStatus → Bool
  | .COMPLETED => true
  | .FAILED => true
  | _ => false

/-- The `while (!completed && attempts < maxAttempts)` loop:
`statuses k` is the status returned by the `k`-th poll, `attempts` the
polls already made, `remaining` the iterations the guard still allows.
Returns the final `(attempts, completed)`. -/
def pollGo (statuses : ℕ → JobStatus) : ℕ → ℕ → ℕ × Bool
  | attempts, 0 => (attempts, false)
  | attempts, remaining + 1 =>
      if isTerminalStatus (statuses attempts) then (attempts + 1, true)
      else pollGo statuses (attempts + 1) remaining

/-- The polling phase of `handleRunAnalysis`, with `maxAttempts = 30`. -/
def handleRunAnalysisPolling (statuses : ℕ → JobStatus) : ℕ × Bool :=
  pollGo statuses 0 30

/-- The error set after the loop when it never completed. -/
def pollingError (result : ℕ × Bool) : Option String :=
  if result.2 then none else some "Analysis took too long. Check status manually."

/-! ## Consensus validation.

Modelled from the spec: the `ConsensusValidator` component is not part of
the shipped sources (only the frontend is); §4.4 of the specification
defines it — consensus mask = logical AND of the two detection masks,
`consensus_quality` = count(consensus) / count(union), defined as `0` when
the union is empty.  Masks are aligned pixel vectors of booleans. -/

/-- Modelled from the spec: the consensus mask, the pixelwise AND of the
MAD mask and the threshold mask. -/
def consensusMask (madMask thresholdMask : List Bool) : List Bool :=
  List.zipWith (· && ·) madMask thresholdMask

/-- Modelled from the spec: the union of the two detection masks. -/
def unionMask (madMask thresholdMask : List Bool) : List Bool :=
  List.zipWith (· || ·) madMask thresholdMask

/-- Number of flagged pixels in a mask. -/
def maskCount (mask : List Bool) : ℕ :=
  mask.count true

/-- Modelled from the spec: `consensus_quality = count(consensus mask) /
count(union of both masks)`, defined as `0` when the union is empty. -/
def consensus_quality (madMask thresholdMask : List Bool) : ℚ :=
  if maskCount (unionMask madMask thresholdMask) = 0 then 0
  else (maskCount (consensusMask madMask thresholdMask) : ℚ) /
    (maskCount (unionMask madMask thresholdMask) : ℚ)

/-! ## Confidence scoring.

Modelled from the spec: the `ConfidenceScorer` is not in the shipped
sources; §4.5 defines `confidence = consensus_quality × (1 − cloud_penalty)
× baseline_fit`, clamped to `[0, 1]`, with `cloud_penalty =
min(cloud_cover_fraction, 0.15)`. -/

/-- Clamp to `[0, 1]`. -/
def clamp01 (x : ℚ) : ℚ :=
  max 0 (min 1 x)

/-- Modelled from the spec: `cloud_penalty = min(cloud_cover_fraction, 0.15)`. -/
def cloudPenalty (cloudCoverFraction : ℚ) : ℚ :=
  min cloudCoverFraction (15 / 100)

/-- Modelled from the spec: the confidence score. -/
def confidenceScore (consensusQuality cloudCoverFraction baselineFit : ℚ) : ℚ :=
  clamp01 (consensusQuality * (1 - cloudPenalty cloudCoverFraction) * baselineFit)

/-! ## Violation state machine.

Modelled from the spec: the `ViolationStateMachine` is not in the shipped
sources; §4.8 defines, per (monitored area, no-go zone) pair, the states
`NONE → OPEN → (ESCALATED)* → RESOLVED → NONE` with the transition rules
embedded in `vsmStep` below.  The severity bands are §4.8's: `< 0.05` ha
LOW, `0.05–0.5` MEDIUM, `0.5–2` HIGH, `> 2` CRITICAL. -/

/-- Modelled from the spec: severity as a function of area-in-zone. -/
def severityOf (areaHa : ℚ) : Severity :=
  if areaHa < 5 / 100 then .LOW
  else if areaHa ≤ 1 / 2 then .MEDIUM
  else if areaHa ≤ 2 then .HIGH
  else .CRITICAL

/-- Configuration of the state machine, with the spec's defaults
(minimum confidence 0.6, minimum violation area 0.01 ha, and an absolute
area-growth threshold for escalation). -/
structure VConfig where
  minConfidence : ℚ := 6 / 10
  minAreaHa : ℚ := 1 / 100
  growthThresholdHa : ℚ := 1 / 10
deriving DecidableEq, Repr

/-- One pipeline run's inputs to the state machine for a given pair:
the run's confidence and the excavated area inside the zone. -/
structure RunInput where
  confidence : ℚ
  areaInZone : ℚ
deriving DecidableEq, Repr

/-- Modelled from the spec: the per-pair state.  `OPEN` and `ESCALATED`
remember the area recorded on the last non-resolved event for the pair. -/
inductive VState where
  | NONE : VState
  | OPEN (lastEventArea : ℚ) : VState
  | ESCALATED (lastEventArea : ℚ) : VState
deriving DecidableEq, Repr

/-- Whether the state holds a non-resolved (open) violation. -/
def VState.openCount : VState → ℕ
  | .NONE => 0
  | .OPEN _ => 1
  | .ESCALATED _ => 1

/-- An event emitted by the state machine (kind, recomputed severity and
area at detection). -/
structure EmittedEvent where
  kind : EventType
  severity : Severity
  areaHa : ℚ
deriving DecidableEq, Repr

/-- Modelled from the spec: one transition of the violation state machine
(§4.8).  A run below minimum confidence never changes the state and emits
nothing; `NONE → OPEN` needs confidence ≥ minimum and area above the
floor; `OPEN/ESCALATED → NONE` (RESOLVED) needs the area at or below the
floor; `OPEN/ESCALATED → ESCALATED` needs growth beyond the threshold since
the last non-resolved event. -/
def vsmStep (cfg : VConfig) (s : VState) (r : RunInput) :
    VState × List EmittedEvent :=
  if r.confidence < cfg.minConfidence then (s, [])
  else
    match s with
    | .NONE =>
        if cfg.minAreaHa < r.areaInZone then
          (.OPEN r.areaInZone,
            [⟨.VIOLATION_START, severityOf r.areaInZone, r.areaInZone⟩])
        else (.NONE, [])
    | .OPEN lastEventArea =>
        if r.areaInZone ≤ cfg.minAreaHa then
          (.NONE, [⟨.VIOLATION_RESOLVED, severityOf r.areaInZone, r.areaInZone⟩])
        else if lastEventArea + cfg.growthThresholdHa < r.areaInZone then
          (.ESCALATED r.areaInZone,
            [⟨.ESCALATION, severityOf r.areaInZone, r.areaInZone⟩])
        else (.OPEN lastEventArea, [])
    | .ESCALATED lastEventArea =>
        if r.areaInZone ≤ cfg.minAreaHa then
          (.NONE, [⟨.VIOLATION_RESOLVED, severityOf r.areaInZone, r.areaInZone⟩])
        else if lastEventArea + cfg.growthThresholdHa < r.areaInZone then
          (.ESCALATED r.areaInZone,
            [⟨.ESCALATION, severityOf r.areaInZone, r.areaInZone⟩])
        else (.ESCALATED lastEventArea, [])

/-- Folding the state machine over a sequence of in-order runs,
accumulating the emitted event history oldest-first. -/
def vsmRun (cfg : VConfig) (s : VState) : List RunInput →
    VState × List EmittedEvent
  | [] => (s, [])
  | r :: rest =>
      let step := vsmStep cfg s r
      let tail := vsmRun cfg step.1 rest
      (tail.1, step.2 ++ tail.2)

/-- `#START − #RESOLVED` over an emitted history: the number of
violations the history leaves open. -/
def historyOpenCount (events : List EmittedEvent) : ℤ :=
  ((events.filter (fun e => e.kind = .VIOLATION_START)).length : ℤ) -
    ((events.filter (fun e => e.kind = .VIOLATION_RESOLVED)).length : ℤ)

/-! ## Theorems -/

/-- C7: every `ViolationEvent` record has an event kind drawn exactly from
the three-valued set START / ESCALATION / RESOLVED (spelled
`VIOLATION_START`, `ESCALATION`, `VIOLATION_RESOLVED` in the source). -/
theorem violation_event_kind_exhaustive :
    ∀ e : ViolationEvent,
      e.event_type = EventType.VIOLATION_START ∨
      e.event_type = EventType.ESCALATION ∨
      e.event_type = EventType.VIOLATION_RESOLVED := by
  intro e
  cases h : e.event_type
  · exact Or.inl rfl
  · exact Or.inr (Or.inl rfl)
  · exact Or.inr (Or.inr rfl)

lemma pollGo_fst_le (statuses : ℕ → JobStatus) :
    ∀ remaining attempts : ℕ,
      (pollGo statuses attempts remaining).1 ≤ attempts + remaining := by
  intro remaining
  induction remaining with
  | zero => intro attempts; simp [pollGo]
  | succ r ih =>
      intro attempts
      simp only [pollGo]
      split
      · simp
      · have := ih (attempts + 1); omega

lemma pollGo_all_nonterminal (statuses : ℕ → JobStatus) :
    ∀ remaining attempts : ℕ,
      (∀ k, k < remaining → isTerminalStatus (statuses (attempts + k)) = false) →
      pollGo statuses attempts remaining = (attempts + remaining, false) := by
  intro remaining
  induction remaining with
  | zero => intro attempts _; simp [pollGo]
  | succ r ih =>
      intro attempts h
      have h0 : isTerminalStatus (statuses attempts) = false := by
        simpa using h 0 (by omega)
      have hs : ∀ k, k < r → isTerminalStatus (statuses (attempts + 1 + k)) = false := by
        intro k hk
        have hx := h (k + 1) (by omega)
        have e : attempts + (k + 1) = attempts + 1 + k := by omega
        rwa [e] at hx
      simp only [pollGo, h0]
      rw [if_neg (by simp), ih (attempts + 1) hs]
      have e : attempts + 1 + r = attempts + (r + 1) := by omega
      rw [e]

lemma pollGo_first_terminal (statuses : ℕ → JobStatus) :
    ∀ i remaining attempts : ℕ, i < remaining →
      (∀ k, k < i → isTerminalStatus (statuses (attempts + k)) = false) →
      isTerminalStatus (statuses (attempts + i)) = true →
      pollGo statuses attempts remaining = (attempts + i + 1, true) := by
  intro i
  induction i with
  | zero =>
      intro remaining attempts hlt _ hterm
      obtain ⟨r, rfl⟩ : ∃ r, remaining = r + 1 := ⟨remaining - 1, by omega⟩
      simp only [pollGo]
      rw [if_pos (by simpa using hterm)]
  | succ j ih =>
      intro remaining attempts hlt hpre hterm
      obtain ⟨r, rfl⟩ : ∃ r, remaining = r + 1 := ⟨remaining - 1, by omega⟩
      have h0 : isTerminalStatus (statuses attempts) = false := by
        simpa using hpre 0 (by omega)
      have hs : ∀ k, k < j → isTerminalStatus (statuses (attempts + 1 + k)) = false := by
        intro k hk
        have hx := hpre (k + 1) (by omega)
        have e : attempts + (k + 1) = attempts + 1 + k := by omega
        rwa [e] at hx
      have hterm1 : isTerminalStatus (statuses (attempts + 1 + j)) = true := by
        have e : attempts + (j + 1) = attempts + 1 + j := by omega
        rwa [e] at hterm
      simp only [pollGo, h0]
      rw [if_neg (by simp), ih r (attempts + 1) (by omega) hs hterm1]
      have e : attempts + 1 + j + 1 = attempts + (j + 1) + 1 := by omega
      rw [e]

/-- C9: the analysis-status polling loop of `handleRunAnalysis` always
terminates: it performs at most 30 polls; if the `i`-th status response
(`i < 30`) is the first COMPLETED/FAILED one it stops right there after
`i + 1` polls with no timeout error; and if 30 polls pass without either
status it stops with the error message
`Analysis took too long. Check status manually.`. -/
theorem handleRunAnalysis_polling_terminates :
    (∀ statuses : ℕ → JobStatus, (handleRunAnalysisPolling statuses).1 ≤ 30) ∧
    (∀ (statuses : ℕ → JobStatus) (i : ℕ), i < 30 →
        (∀ k, k < i → isTerminalStatus (statuses k) = false) →
        isTerminalStatus (statuses i) = true →
        handleRunAnalysisPolling statuses = (i + 1, true) ∧
        pollingError (handleRunAnalysisPolling statuses) = none) ∧
    (∀ statuses : ℕ → JobStatus,
        (∀ k, k < 30 → isTerminalStatus (statuses k) = false) →
        handleRunAnalysisPolling statuses = (30, false) ∧
        pollingError (handleRunAnalysisPolling statuses) =
          some "Analysis took too long. Check status manually.") := by
  refine ⟨?_, ?_, ?_⟩
  · intro statuses
    simpa using pollGo_fst_le statuses 30 0
  · intro statuses i hi hpre hterm
    have h := pollGo_first_terminal statuses i 30 0 hi
      (by intro k hk; simpa using hpre k hk) (by simpa using hterm)
    have h0 : handleRunAnalysisPolling statuses = (i + 1, true) := by
      simpa [handleRunAnalysisPolling] using h
    exact ⟨h0, by simp [h0, pollingError]⟩
  · intro statuses h
    have h0 : handleRunAnalysisPolling statuses = (30, false) := by
      simpa [handleRunAnalysisPolling] using
        pollGo_all_nonterminal statuses 30 0 (by intro k hk; simpa using h k hk)
    exact ⟨h0, by simp [h0, pollingError]⟩

/-- C9 witness: concrete response streams — one whose fifth poll reports
COMPLETED (five polls, no error), and one that never reports a terminal
status (30 polls, timeout message). -/
theorem handleRunAnalysis_polling_terminates_witness :
    (handleRunAnalysisPolling
        (fun k => if k = 4 then JobStatus.COMPLETED else JobStatus.RUNNING) =
      (5, true) ∧
     pollingError (handleRunAnalysisPolling
        (fun k => if k = 4 then JobStatus.COMPLETED else JobStatus.RUNNING)) =
      none) ∧
    (handleRunAnalysisPolling (fun _ => JobStatus.RUNNING) = (30, false) ∧
     pollingError (handleRunAnalysisPolling (fun _ => JobStatus.RUNNING)) =
      some "Analysis took too long. Check status manually.") := by
  constructor
  · exact handleRunAnalysis_polling_terminates.2.1
      (fun k => if k = 4 then JobStatus.COMPLETED else JobStatus.RUNNING) 4
      (by omega) (by decide) (by decide)
  · exact handleRunAnalysis_polling_terminates.2.2
      (fun _ => JobStatus.RUNNING) (by intro k _; rfl)

/-- C10 counterexample: `calculateArea` is not total — a `Polygon` whose
`coordinates` array is empty makes `parseGeometry` dereference
`coordinates[0]` (`undefined`) and `.map` on it throws a `TypeError`. -/
theorem calculateArea_crashes_on_ringless_polygon :
    calculateArea (Geometry.polygon []) = Except.error undefinedMapError ∧
    calculateArea (Geometry.multiPolygon []) = Except.error undefinedMapError := by
  exact ⟨rfl, rfl⟩

/-- C10 (amended): `calculateArea` returns a value exactly when the
geometry does not lack the first ring dereferenced by `parseGeometry`;
every returned value is `|shoelace sum| / 2 ≥ 0`, and it is exactly `0`
whenever the parsed coordinates number fewer than 3 (null, non-polygon
and empty-first-ring geometries included). -/
theorem calculateArea_safety :
    (∀ g : Geometry, (∃ v, calculateArea g = Except.ok v) ↔ hasFirstRing g = true) ∧
    (∀ (g : Geometry) (v : ℚ), calculateArea g = Except.ok v → 0 ≤ v) ∧
    (∀ (g : Geometry) (coords : List (ℚ × ℚ)), parseGeometry g = Except.ok coords →
        calculateArea g =
          Except.ok (if coords.length < 3 then 0 else |shoelaceSum coords| / 2)) := by
  refine ⟨?_, ?_, ?_⟩
  · intro g
    cases g with
    | nullGeom => simp [calculateArea, parseGeometry, hasFirstRing, Except.map]
    | polygon coordinates =>
        cases coordinates with
        | nil => simp [calculateArea, parseGeometry, hasFirstRing, Except.map]
        | cons ring rest =>
            simp [calculateArea, parseGeometry, hasFirstRing, Except.map]
    | multiPolygon coordinates =>
        cases coordinates with
        | nil => simp [calculateArea, parseGeometry, hasFirstRing, Except.map]
        | cons polys rest =>
            cases polys with
            | nil => simp [calculateArea, parseGeometry, hasFirstRing, Except.map]
            | cons ring rp =>
                simp [calculateArea, parseGeometry, hasFirstRing, Except.map]
    | otherGeom => simp [calculateArea, parseGeometry, hasFirstRing, Except.map]
  · intro g v h
    cases hp : parseGeometry g with
    | error msg => simp [calculateArea, hp, Except.map] at h
    | ok coords =>
        simp only [calculateArea, hp, Except.map, Except.ok.injEq] at h
        subst h
        split
        · exact le_refl 0
        · positivity
  · intro g coords hp
    simp [calculateArea, hp, Except.map]

/-- C10 witness: a concrete unit square with a degenerate extra edge has
area `1/2 ≥ 0`, and the null geometry yields a value. -/
theorem calculateArea_safety_witness :
    (0 : ℚ) ≤ 1 / 2 ∧ (∃ v, calculateArea Geometry.nullGeom = Except.ok v) ∧
    calculateArea Geometry.nullGeom = Except.ok 0 := by
  refine ⟨?_, ?_, ?_⟩
  · exact calculateArea_safety.2.1
      (Geometry.polygon [[(0, 0), (1, 0), (1, 1), (0, 0)]]) (1 / 2)
      (by simp [calculateArea, parseGeometry, Except.map, shoelaceSum])
  · exact (calculateArea_safety.1 Geometry.nullGeom).mpr (by decide)
  · exact calculateArea_safety.2.2 Geometry.nullGeom [] rfl

/-- C8: `polygonToGeoJSON` throws exactly on inputs with fewer than 3
vertices; on any other input it returns a single ring consisting of the
inputs with `[lat, lng]` swapped to `[lng, lat]`, with the first swapped
coordinate appended exactly when the swapped endpoints differ, so that the
ring's first coordinate always equals its last. -/
theorem polygonToGeoJSON_spec :
    (∀ coords : List (ℚ × ℚ),
        (∃ msg, polygonToGeoJSON coords = Except.error msg) ↔ coords.length < 3) ∧
    (∀ coords : List (ℚ × ℚ), 3 ≤ coords.length →
        ∃ ring,
          polygonToGeoJSON coords = Except.ok { coordinates := [ring] } ∧
          (if (coords.map fun c => (c.2, c.1)).head? =
              (coords.map fun c => (c.2, c.1)).getLast?
           then ring = coords.map fun c => (c.2, c.1)
           else ring = (coords.map fun c => (c.2, c.1)) ++
              ((coords.map fun c => (c.2, c.1)).head?).toList) ∧
          ring.head? = ring.getLast? ∧
          ring.head? = (coords.map fun c => (c.2, c.1)).head?) := by
  constructor
  · intro coords
    by_cases h : coords.length < 3
    · exact ⟨fun _ => h, fun _ => ⟨"Polygon must have at least 3 vertices",
        by simp [polygonToGeoJSON, h]⟩⟩
    · constructor
      · rintro ⟨msg, hm⟩
        simp [polygonToGeoJSON, h] at hm
      · intro hc; exact absurd hc h
  · intro coords h3
    obtain ⟨c, rest, rfl⟩ : ∃ c rest, coords = c :: rest := by
      cases coords with
      | nil => simp at h3
      | cons a t => exact ⟨a, t, rfl⟩
    have hlen : ¬ ((c :: rest).length < 3) := by omega
    have hmapcons : ((c :: rest).map fun c => (c.2, c.1)) =
        (c.2, c.1) :: (rest.map fun c => (c.2, c.1)) := by simp
    have hsne : ((c :: rest).map fun c => (c.2, c.1)) ≠ [] := by simp
    have hhead : ((c :: rest).map fun c => (c.2, c.1)).head? = some (c.2, c.1) := by
      simp
    obtain ⟨lastc, hlast⟩ : ∃ lastc,
        ((c :: rest).map fun c => (c.2, c.1)).getLast? = some lastc :=
      ⟨_, List.getLast?_eq_getLast _ hsne⟩
    by_cases hcl : (c.2, c.1) = lastc
    · refine ⟨(c :: rest).map fun c => (c.2, c.1), ?_, ?_, ?_, rfl⟩
      · simp only [polygonToGeoJSON, if_neg hlen, hhead, hlast]
        rw [if_neg (by simp [hcl])]
      · rw [if_pos (by rw [hhead, hlast, hcl])]
      · rw [hhead, hlast, hcl]
    · refine ⟨((c :: rest).map fun c => (c.2, c.1)) ++ [(c.2, c.1)], ?_, ?_, ?_, ?_⟩
      · simp only [polygonToGeoJSON, if_neg hlen, hhead, hlast]
        rw [if_pos (by simp [hcl])]
      · rw [if_neg (by rw [hhead, hlast]; simp [hcl]), hhead]
        rfl
      · rw [List.head?_append_of_ne_nil _ hsne, hhead, List.getLast?_concat]
      · rw [List.head?_append_of_ne_nil _ hsne]

/-- C8 witness: a concrete open triangle — its swapped endpoints differ, so
the first coordinate is appended; and a concrete two-vertex input throws. -/
theorem polygonToGeoJSON_spec_witness :
    (∃ ring,
        polygonToGeoJSON [((1 : ℚ), (2 : ℚ)), (3, 4), (5, 6)] =
          Except.ok { coordinates := [ring] } ∧
        (if (([((1 : ℚ), (2 : ℚ)), (3, 4), (5, 6)].map fun c => (c.2, c.1)).head? =
            ([((1 : ℚ), (2 : ℚ)), (3, 4), (5, 6)].map fun c => (c.2, c.1)).getLast?)
         then ring = [((1 : ℚ), (2 : ℚ)), (3, 4), (5, 6)].map fun c => (c.2, c.1)
         else ring = ([((1 : ℚ), (2 : ℚ)), (3, 4), (5, 6)].map fun c => (c.2, c.1)) ++
            (([((1 : ℚ), (2 : ℚ)), (3, 4), (5, 6)].map fun c => (c.2, c.1)).head?).toList) ∧
        ring.head? = ring.getLast? ∧
        ring.head? = ([((1 : ℚ), (2 : ℚ)), (3, 4), (5, 6)].map fun c => (c.2, c.1)).head?) ∧
    (∃ msg, polygonToGeoJSON [((1 : ℚ), (2 : ℚ)), (3, 4)] = Except.error msg) := by
  constructor
  · exact polygonToGeoJSON_spec.2 [((1 : ℚ), (2 : ℚ)), (3, 4), (5, 6)] (by simp)
  · exact (polygonToGeoJSON_spec.1 [((1 : ℚ), (2 : ℚ)), (3, 4)]).mpr (by simp)

lemma clampPos_nonneg (r : ℚ) : 0 ≤ clampPos r := by
  unfold clampPos
  split
  · linarith
  · exact le_refl 0

lemma chartRatesFrom_length :
    ∀ (l : List TSPoint) (prev : Option ℚ),
      (chartRatesFrom prev l).length = l.length := by
  intro l
  induction l with
  | nil => intro prev; rfl
  | cons p rest ih => intro prev; simp [chartRatesFrom, ih]

lemma chartRatesFrom_mem_nonneg :
    ∀ (l : List TSPoint) (prev : Option ℚ) (r : ℚ),
      r ∈ chartRatesFrom prev l → 0 ≤ r := by
  intro l
  induction l with
  | nil => intro prev r h; simp [chartRatesFrom] at h
  | cons p rest ih =>
      intro prev r h
      simp only [chartRatesFrom, List.mem_cons] at h
      rcases h with h | h
      · exact h ▸ clampPos_nonneg _
      · exact ih _ r h

lemma chartRatesFrom_getElem_succ :
    ∀ (l : List TSPoint) (prev : Option ℚ) (i : ℕ) (p q : TSPoint),
      l[i]? = some p → l[i + 1]? = some q →
      (chartRatesFrom prev l)[i + 1]? =
        some (clampPos (q.excavated_area_ha - p.excavated_area_ha)) := by
  intro l
  induction l with
  | nil => intro prev i p q h1 _; simp at h1
  | cons x rest ih =>
      intro prev i p q h1 h2
      cases i with
      | zero =>
          simp only [List.getElem?_cons_zero, Option.some.injEq] at h1
          subst h1
          simp only [List.getElem?_cons_succ] at h2
          cases rest with
          | nil => simp at h2
          | cons y r2 =>
              simp only [List.getElem?_cons_zero, Option.some.injEq] at h2
              subst h2
              simp [chartRatesFrom]
      | succ j =>
          simp only [List.getElem?_cons_succ] at h1 h2
          simpa [chartRatesFrom] using ih (some x.excavated_area_ha) j p q h1 h2

/-- C5 counterexample: two points two days apart whose raw areas differ by
3 ha.  The chart reports a rate of `3` (the raw delta, timestamps never
consulted), while the claimed formula — delta divided by elapsed days —
gives `3/2`. -/
theorem chart_rate_ignores_elapsed_days :
    (chartRateSeries [⟨0, 0, none⟩, ⟨2, 3, none⟩])[1]? = some 3 ∧
    specRate ⟨0, 0, none⟩ ⟨2, 3, none⟩ = 3 / 2 ∧
    (3 : ℚ) ≠ 3 / 2 := by
  refine ⟨?_, ?_, by norm_num⟩
  · simp [chartRateSeries, chartRatesFrom, clampPos]
  · rw [specRate, clampPos]
    norm_num

/-- C5 (amended): the chart's reported excavation rate series has one
entry per raw point; the entry at the first point is `0`, the entry at
every later point `t` is `area[t] − area[t−1]` clamped to `≥ 0` — the raw
delta, with no division by the elapsed days — and no reported rate is ever
negative. -/
theorem chart_rate_clamped_delta :
    (∀ l : List TSPoint, (chartRateSeries l).length = l.length) ∧
    (∀ (l : List TSPoint) (r : ℚ), r ∈ chartRateSeries l → 0 ≤ r) ∧
    (∀ (p : TSPoint) (rest : List TSPoint),
        (chartRateSeries (p :: rest))[0]? = some 0) ∧
    (∀ (l : List TSPoint) (i : ℕ) (p q : TSPoint),
        l[i]? = some p → l[i + 1]? = some q →
        (chartRateSeries l)[i + 1]? =
          some (clampPos (q.excavated_area_ha - p.excavated_area_ha))) := by
  refine ⟨?_, ?_, ?_, ?_⟩
  · intro l; exact chartRatesFrom_length l none
  · intro l r h; exact chartRatesFrom_mem_nonneg l none r h
  · intro p rest; simp [chartRateSeries, chartRatesFrom, clampPos]
  · intro l i p q h1 h2; exact chartRatesFrom_getElem_succ l none i p q h1 h2

/-- C5 witness: on the two-point series of the counterexample the second
reported rate is the clamped raw delta `3`, and every reported rate in
that series is nonnegative (shown at the reported value `3`). -/
theorem chart_rate_clamped_delta_witness :
    (chartRateSeries [⟨0, 0, none⟩, ⟨(2 : ℚ), 3, none⟩])[0 + 1]? =
      some (clampPos ((3 : ℚ) - 0)) ∧
    (0 : ℚ) ≤ 3 := by
  constructor
  · exact chart_rate_clamped_delta.2.2.2 [⟨0, 0, none⟩, ⟨(2 : ℚ), 3, none⟩] 0
      ⟨0, 0, none⟩ ⟨(2 : ℚ), 3, none⟩ (by rfl) (by rfl)
  · exact chart_rate_clamped_delta.2.1 [⟨0, 0, none⟩, ⟨(2 : ℚ), 3, none⟩] 3
      (by norm_num [chartRateSeries, chartRatesFrom, clampPos])

/-- C6 counterexample: a no-go point with raw area `5` ha and no smoothed
value — the chart's no-go smoothed series falls back to `0`, not to the
raw value. -/
theorem nogo_smooth_fallback_zero :
    nogoSmoothSeries [⟨0, 1, none⟩] [⟨0, 5, none⟩] = [0] ∧
    (([⟨(0 : ℚ), 5, none⟩] : List TSPoint)[0]?).map TSPoint.excavated_area_ha =
      some 5 ∧
    (([⟨(0 : ℚ), 5, none⟩] : List TSPoint)[0]?).bind TSPoint.smoothed_area_ha =
      none ∧
    (0 : ℚ) ≠ 5 := by
  refine ⟨?_, rfl, rfl, by norm_num⟩
  decide

/-- C6 (amended): the chart's legal-boundary smoothed series has exactly
one entry per raw point and equals the raw value wherever no smoothed
value exists; the no-go smoothed series (indexed by the legal series)
falls back to `0`, not to the raw no-go value, where the smoothed value is
missing. -/
theorem smooth_series_lengths_and_fallback :
    (∀ l : List TSPoint, (legalSmoothSeries l).length = l.length) ∧
    (∀ (l : List TSPoint) (i : ℕ) (p : TSPoint), l[i]? = some p →
        p.smoothed_area_ha = none →
        (legalSmoothSeries l)[i]? = some p.excavated_area_ha) ∧
    (∀ legal nogo : List TSPoint,
        (nogoSmoothSeries legal nogo).length = legal.length) ∧
    (∀ (legal nogo : List TSPoint) (i : ℕ) (p : TSPoint), i < legal.length →
        nogo[i]? = some p → p.smoothed_area_ha = none →
        (nogoSmoothSeries legal nogo)[i]? = some 0) := by
  refine ⟨?_, ?_, ?_, ?_⟩
  · intro l; simp [legalSmoothSeries]
  · intro l i p hp hsm
    simp [legalSmoothSeries, List.getElem?_map, hp, jsOrNum, hsm]
  · intro legal nogo; simp [nogoSmoothSeries]
  · intro legal nogo i p hi hp hsm
    simp [nogoSmoothSeries, List.getElem?_map, List.getElem?_range hi, hp,
      jsOrNum, hsm]

/-- C6 witness: a legal point with smoothed value missing falls back to
its raw value `1`, and the counterexample's no-go point falls back to `0`. -/
theorem smooth_series_lengths_and_fallback_witness :
    (legalSmoothSeries [⟨0, 1, none⟩])[0]? = some (1 : ℚ) ∧
    (nogoSmoothSeries [⟨0, 1, none⟩] [⟨0, 5, none⟩])[0]? = some 0 := by
  constructor
  · exact smooth_series_lengths_and_fallback.2.1 [⟨0, 1, none⟩] 0 ⟨0, 1, none⟩
      (by rfl) (by rfl)
  · exact smooth_series_lengths_and_fallback.2.2.2 [⟨0, 1, none⟩] [⟨0, 5, none⟩] 0
      ⟨0, 5, none⟩ (by norm_num) (by rfl) (by rfl)

lemma maskCount_cons (x : Bool) (l : List Bool) :
    maskCount (x :: l) = maskCount l + if x then 1 else 0 := by
  cases x <;> simp [maskCount, List.count_cons]

lemma maskCount_consensus_le_union :
    ∀ m t : List Bool,
      maskCount (consensusMask m t) ≤ maskCount (unionMask m t) := by
  intro m
  induction m with
  | nil => intro t; simp [consensusMask, unionMask]
  | cons a m' ih =>
      intro t
      cases t with
      | nil => simp [consensusMask, unionMask]
      | cons b t' =>
          have := ih t'
          simp only [consensusMask, unionMask, List.zipWith_cons_cons,
            maskCount_cons] at *
          cases a <;> cases b <;> simp <;> omega

lemma consensus_pointwise_union :
    ∀ (m t : List Bool) (i : ℕ),
      (consensusMask m t).getD i false = true →
      (unionMask m t).getD i false = true := by
  intro m
  induction m with
  | nil => intro t i h; simp [consensusMask] at h
  | cons a m' ih =>
      intro t i h
      cases t with
      | nil => simp [consensusMask] at h
      | cons b t' =>
          cases i with
          | zero =>
              simp only [consensusMask, unionMask, List.zipWith_cons_cons,
                List.getD_cons_zero] at *
              cases a <;> cases b <;> simp_all
          | succ j =>
              simp only [consensusMask, unionMask, List.zipWith_cons_cons,
                List.getD_cons_succ] at *
              exact ih t' j h

/-- C3 counterexample: when each method flags a different pixel, the
consensus mask is empty while the union holds both pixels, so
`consensus_quality = 0` with a non-empty union — refuting the claimed
"`consensus_quality = 0` iff the union mask is empty". -/
theorem consensus_quality_zero_with_nonempty_union :
    consensus_quality [true, false] [false, true] = 0 ∧
    maskCount (unionMask [true, false] [false, true]) = 2 ∧
    consensusMask [true, false] [false, true] = [false, false] := by
  refine ⟨?_, by decide, by decide⟩
  unfold consensus_quality
  rw [show maskCount (unionMask [true, false] [false, true]) = 2 from by decide,
    show maskCount (consensusMask [true, false] [false, true]) = 0 from by decide]
  norm_num

/-- C3 (amended): the consensus mask is the pixelwise AND (hence a subset
of the union of the two masks), `consensus_quality` lies in `[0, 1]`, an
empty union gives quality `0`, and quality is `0` exactly when the
*consensus* mask is empty (which the empty union implies but which also
happens with a non-empty union). -/
theorem consensus_validator_spec :
    (∀ (m t : List Bool) (i : ℕ),
        (consensusMask m t).getD i false = true →
        (unionMask m t).getD i false = true) ∧
    (∀ m t : List Bool,
        0 ≤ consensus_quality m t ∧ consensus_quality m t ≤ 1) ∧
    (∀ m t : List Bool,
        maskCount (unionMask m t) = 0 → consensus_quality m t = 0) ∧
    (∀ m t : List Bool,
        consensus_quality m t = 0 ↔ maskCount (consensusMask m t) = 0) := by
  refine ⟨consensus_pointwise_union, ?_, ?_, ?_⟩
  · intro m t
    unfold consensus_quality
    split
    · norm_num
    · rename_i hu
      have hpos : (0 : ℚ) < (maskCount (unionMask m t) : ℚ) := by
        exact_mod_cast Nat.pos_of_ne_zero hu
      constructor
      · positivity
      · rw [div_le_one hpos]
        exact_mod_cast maskCount_consensus_le_union m t
  · intro m t hu
    unfold consensus_quality
    rw [if_pos hu]
  · intro m t
    unfold consensus_quality
    split
    · rename_i hu
      have hle := maskCount_consensus_le_union m t
      constructor
      · intro _; omega
      · intro _; rfl
    · rename_i hu
      have hne : ((maskCount (unionMask m t) : ℚ)) ≠ 0 := by
        exact_mod_cast hu
      rw [div_eq_zero_iff]
      constructor
      · rintro (h | h)
        · exact_mod_cast h
        · exact absurd h hne
      · intro h
        exact Or.inl (by exact_mod_cast h)

/-- C3 witness: a pixel flagged by both methods is in the union, and the
empty-union case evaluates to quality `0`. -/
theorem consensus_validator_spec_witness :
    (unionMask [true] [true]).getD 0 false = true ∧
    consensus_quality [false] [false] = 0 := by
  constructor
  · exact consensus_validator_spec.1 [true] [true] 0 (by decide)
  · exact consensus_validator_spec.2.2.1 [false] [false] (by decide)

lemma clamp01_mono {x y : ℚ} (h : x ≤ y) : clamp01 x ≤ clamp01 y :=
  max_le_max le_rfl (min_le_min le_rfl h)

lemma clamp01_eq_self {x : ℚ} (h0 : 0 ≤ x) (h1 : x ≤ 1) : clamp01 x = x := by
  unfold clamp01
  rw [min_eq_right h1, max_eq_right h0]

lemma cloudPenalty_le_cap (cc : ℚ) : cloudPenalty cc ≤ 15 / 100 :=
  min_le_right _ _

lemma cloudPenalty_nonneg {cc : ℚ} (h : 0 ≤ cc) : 0 ≤ cloudPenalty cc :=
  le_min h (by norm_num)

/-- C4: the confidence score is monotonically non-decreasing in the
consensus quality and non-increasing in the cloud-cover fraction for fixed
baseline fit, and the cloud penalty — capped at 0.15 — never drives
confidence below 85% of its zero-cloud value. -/
theorem confidence_monotone_and_cloud_floor :
    (∀ q₁ q₂ cc bf : ℚ, 0 ≤ bf → q₁ ≤ q₂ →
        confidenceScore q₁ cc bf ≤ confidenceScore q₂ cc bf) ∧
    (∀ q cc₁ cc₂ bf : ℚ, 0 ≤ q → 0 ≤ bf → cc₁ ≤ cc₂ →
        confidenceScore q cc₂ bf ≤ confidenceScore q cc₁ bf) ∧
    (∀ q cc bf : ℚ, 0 ≤ q → q ≤ 1 → 0 ≤ bf → bf ≤ 1 → 0 ≤ cc →
        85 / 100 * confidenceScore q 0 bf ≤ confidenceScore q cc bf) := by
  refine ⟨?_, ?_, ?_⟩
  · intro q₁ q₂ cc bf hbf hq
    apply clamp01_mono
    have hc : (0 : ℚ) ≤ 1 - cloudPenalty cc := by
      have := cloudPenalty_le_cap cc; linarith
    exact mul_le_mul_of_nonneg_right (mul_le_mul_of_nonneg_right hq hc) hbf
  · intro q cc₁ cc₂ bf hq hbf hcc
    apply clamp01_mono
    have hp : cloudPenalty cc₁ ≤ cloudPenalty cc₂ := min_le_min hcc le_rfl
    nlinarith [mul_nonneg (mul_nonneg hq hbf) (sub_nonneg.mpr hp)]
  · intro q cc bf hq0 hq1 hbf0 hbf1 hcc
    have hp0 : cloudPenalty 0 = 0 := min_eq_left (by norm_num)
    have hcap := cloudPenalty_le_cap cc
    have hpn := cloudPenalty_nonneg hcc
    have hqb0 : (0 : ℚ) ≤ q * bf := mul_nonneg hq0 hbf0
    have hqb1 : q * bf ≤ 1 := mul_le_one₀ hq1 hbf0 hbf1
    have e0 : confidenceScore q 0 bf = q * bf := by
      rw [confidenceScore, hp0]
      rw [show q * (1 - 0) * bf = q * bf by ring]
      exact clamp01_eq_self hqb0 hqb1
    have e1 : confidenceScore q cc bf = q * (1 - cloudPenalty cc) * bf := by
      rw [confidenceScore]
      refine clamp01_eq_self ?_ ?_
      · have : (0 : ℚ) ≤ 1 - cloudPenalty cc := by linarith
        exact mul_nonneg (mul_nonneg hq0 this) hbf0
      · nlinarith
    rw [e0, e1]
    nlinarith [mul_nonneg hqb0 (sub_nonneg.mpr hcap)]

/-- C4 witness: concrete instances — raising consensus quality from `1/4`
to `1/2` at 10% cloud cover does not lower confidence; raising cloud cover
from `0` to `1/2` does not raise it; and at 50% cloud cover confidence
stays at or above 85% of the zero-cloud value. -/
theorem confidence_monotone_and_cloud_floor_witness :
    confidenceScore (1 / 4) (1 / 10) 1 ≤ confidenceScore (1 / 2) (1 / 10) 1 ∧
    confidenceScore (1 / 2) (1 / 2) 1 ≤ confidenceScore (1 / 2) 0 1 ∧
    85 / 100 * confidenceScore (1 / 2) 0 1 ≤ confidenceScore (1 / 2) (1 / 2) 1 := by
  refine ⟨?_, ?_, ?_⟩
  · exact confidence_monotone_and_cloud_floor.1 (1 / 4) (1 / 2) (1 / 10) 1
      (by norm_num) (by norm_num)
  · exact confidence_monotone_and_cloud_floor.2.1 (1 / 2) 0 (1 / 2) 1
      (by norm_num) (by norm_num) (by norm_num)
  · exact confidence_monotone_and_cloud_floor.2.2 (1 / 2) (1 / 2) 1
      (by norm_num) (by norm_num) (by norm_num) (by norm_num) (by norm_num)

lemma historyOpenCount_append (a b : List EmittedEvent) :
    historyOpenCount (a ++ b) = historyOpenCount a + historyOpenCount b := by
  simp only [historyOpenCount, List.filter_append, List.length_append]
  push_cast
  ring

lemma vsmStep_openCount (cfg : VConfig) (s : VState) (r : RunInput) :
    historyOpenCount (vsmStep cfg s r).2 =
      ((vsmStep cfg s r).1.openCount : ℤ) - (s.openCount : ℤ) := by
  by_cases h : r.confidence < cfg.minConfidence
  · simp [vsmStep, h, historyOpenCount]
  · cases s with
    | NONE =>
        simp only [vsmStep, if_neg h]
        split_ifs with h1 <;> simp [historyOpenCount, VState.openCount]
    | OPEN lastEventArea =>
        simp only [vsmStep, if_neg h]
        split_ifs with h1 h2 <;> simp [historyOpenCount, VState.openCount]
    | ESCALATED lastEventArea =>
        simp only [vsmStep, if_neg h]
        split_ifs with h1 h2 <;> simp [historyOpenCount, VState.openCount]

lemma vsmRun_openCount :
    ∀ (runs : List RunInput) (cfg : VConfig) (s : VState),
      historyOpenCount (vsmRun cfg s runs).2 =
        ((vsmRun cfg s runs).1.openCount : ℤ) - (s.openCount : ℤ) := by
  intro runs
  induction runs with
  | nil => intro cfg s; simp [vsmRun, historyOpenCount]
  | cons r rest ih =>
      intro cfg s
      simp only [vsmRun, historyOpenCount_append]
      rw [vsmStep_openCount, ih]
      omega

/-- C1 counterexample (client side): the client's `addViolation` prepends
every incoming `violation_alert` as a fresh non-resolved entry, with no
lookup by (area, zone).  Two alerts carrying the same
(`aoi-1`, `zone-1`) pair leave two non-resolved violations in the
maintained collection at once. -/
theorem client_collects_two_open_for_same_pair :
    (WsMessage.violationAlert (some "evt-1") (some "VIOLATION_START")
        (some "2026-01-01") (some 2) (some "LOW") none "aoi-1" "zone-1").pair =
      (WsMessage.violationAlert (some "evt-2") (some "ESCALATION")
        (some "2026-01-02") (some 6) (some "HIGH") none "aoi-1" "zone-1").pair ∧
    countNonResolved (processWsMessages "now" []
      [WsMessage.violationAlert (some "evt-1") (some "VIOLATION_START")
        (some "2026-01-01") (some 2) (some "LOW") none "aoi-1" "zone-1",
       WsMessage.violationAlert (some "evt-2") (some "ESCALATION")
        (some "2026-01-02") (some 6) (some "HIGH") none "aoi-1" "zone-1"]) = 2 := by
  exact ⟨rfl, rfl⟩

/-- C1 (amended): the violation state machine (modelled from the spec)
does maintain the invariant — for every configuration, every sequence of
in-order runs and every point in time (prefix of the run sequence), the
emitted event history leaves at most one violation open per (area, zone)
pair (`#START − #RESOLVED ∈ {0, 1}`); the client-side collection does not
enforce it (see the counterexample). -/
theorem vsm_at_most_one_open_per_pair :
    ∀ (cfg : VConfig) (runs : List RunInput) (k : ℕ),
      0 ≤ historyOpenCount (vsmRun cfg VState.NONE (runs.take k)).2 ∧
      historyOpenCount (vsmRun cfg VState.NONE (runs.take k)).2 ≤ 1 := by
  intro cfg runs k
  rw [vsmRun_openCount (runs.take k) cfg VState.NONE]
  cases (vsmRun cfg VState.NONE (runs.take k)).1 <;>
    simp [VState.openCount]

/-- C2: a run below the minimum-confidence threshold leaves the violation
state unchanged and emits no event at all (in particular no RESOLVED
event), and every RESOLVED event is emitted by a run with confidence at or
above the threshold, from an OPEN or ESCALATED state, with area at or
below the floor, closing the violation. -/
theorem vsm_resolved_requires_min_confidence :
    (∀ (cfg : VConfig) (s : VState) (r : RunInput),
        r.confidence < cfg.minConfidence → vsmStep cfg s r = (s, [])) ∧
    (∀ (cfg : VConfig) (s : VState) (r : RunInput) (e : EmittedEvent),
        e ∈ (vsmStep cfg s r).2 → e.kind = EventType.VIOLATION_RESOLVED →
        cfg.minConfidence ≤ r.confidence ∧ r.areaInZone ≤ cfg.minAreaHa ∧
        (vsmStep cfg s r).1 = VState.NONE ∧ s ≠ VState.NONE) := by
  constructor
  · intro cfg s r h
    unfold vsmStep
    rw [if_pos h]
  · intro cfg s r e hmem hkind
    by_cases h : r.confidence < cfg.minConfidence
    · simp [vsmStep, h] at hmem
    · cases s with
      | NONE =>
          simp only [vsmStep, if_neg h] at hmem
          split_ifs at hmem with h1
          · simp only [List.mem_singleton] at hmem
            rw [hmem] at hkind
            simp at hkind
          · simp at hmem
      | OPEN lastEventArea =>
          simp only [vsmStep, if_neg h] at hmem
          split_ifs at hmem with h1 h2
          · exact ⟨not_lt.mp h, h1, by simp [vsmStep, if_neg h, h1], by simp⟩
          · simp only [List.mem_singleton] at hmem
            rw [hmem] at hkind
            simp at hkind
          · simp at hmem
      | ESCALATED lastEventArea =>
          simp only [vsmStep, if_neg h] at hmem
          split_ifs at hmem with h1 h2
          · exact ⟨not_lt.mp h, h1, by simp [vsmStep, if_neg h, h1], by simp⟩
          · simp only [List.mem_singleton] at hmem
            rw [hmem] at hkind
            simp at hkind
          · simp at hmem

/-- C2 witness: a confident clean run (confidence 1 ≥ minimum 1, area 1 ≤
floor 2) resolves an open violation, and a low-confidence run (0 < 1)
leaves an open violation untouched with no event. -/
theorem vsm_resolved_requires_min_confidence_witness :
    ((1 : ℚ) ≤ 1 ∧ (1 : ℚ) ≤ 2 ∧
      (vsmStep ⟨1, 2, 1⟩ (VState.OPEN 5) ⟨1, 1⟩).1 = VState.NONE ∧
      VState.OPEN 5 ≠ VState.NONE) ∧
    vsmStep ⟨1, 2, 1⟩ (VState.OPEN 5) ⟨0, 7⟩ = (VState.OPEN 5, []) := by
  constructor
  · exact vsm_resolved_requires_min_confidence.2 ⟨1, 2, 1⟩ (VState.OPEN 5) ⟨1, 1⟩
      ⟨EventType.VIOLATION_RESOLVED, severityOf 1, 1⟩
      (by norm_num [vsmStep, severityOf]) rfl
  · exact vsm_resolved_requires_min_confidence.1 ⟨1, 2, 1⟩ (VState.OPEN 5) ⟨0, 7⟩
      (by norm_num)

end ExcavationMonitoring
